import Mathlib

/-!
# Verification of `generate_subscription_tracker.py`

A shallow embedding of the recurring-subscription aggregator
(`parse_transactions`) and the relevant renderer facts
(`generate_html`) of the repository, together with proofs of the
spec's claims about them.

Modelling conventions:
* Python `datetime` values parsed from `M/D/YYYY` strings are embedded
  as proleptic-Gregorian day ordinals (`Nat`), exactly as
  `datetime.toordinal` computes them; `TODAY = datetime.now()` becomes
  an explicit parameter `now` on the same day scale (possibly with a
  fractional part, since `datetime.now()` carries a time of day).
* Python `float` values are embedded as exact fractions (`Flt`,
  an integer numerator with a natural denominator, kept unnormalised so
  that every operation is kernel-computable); IEEE-754 rounding is
  idealised away.  `Flt.val` maps a fraction to the rational it denotes.
* The `while next_billing < TODAY` loop is embedded with explicit fuel
  (`billingLoop`); a `none` result for every fuel amount is
  non-termination of the source loop.
* A CSV row as seen through `csv.DictReader` is a record of optional
  string fields; an absent field models a missing column (accessing it
  raises `KeyError`).
-/

/-- An exact fraction: embeds the value of a Python `float`.  The
denominator is not normalised, so all arithmetic below is plain integer
arithmetic and computes inside the kernel. -/
structure Flt where
  num : Int
  den : Nat
deriving Repr, DecidableEq

/-- The rational value an `Flt` denotes. -/
def Flt.val (x : Flt) : ℚ := (x.num : ℚ) / (x.den : ℚ)

/-- Embed an integer. -/
def Flt.ofInt (n : Int) : Flt := ⟨n, 1⟩

/-- Addition of exact fractions (models `+` on Python numbers). -/
def Flt.add (a b : Flt) : Flt :=
  ⟨a.num * (b.den : Int) + b.num * (a.den : Int), a.den * b.den⟩

/-- Absolute value (models Python `abs`). -/
def Flt.abs (a : Flt) : Flt := ⟨|a.num|, a.den⟩

/-- Division by a natural number (models `x / n` for a list length `n`). -/
def Flt.divNat (a : Flt) (n : Nat) : Flt := ⟨a.num, a.den * n⟩

/-- Strict comparison by cross-multiplication (models `<` on Python
numbers; agrees with `Flt.val` comparison when denominators are
positive, which holds for every value the program builds). -/
def Flt.blt (a b : Flt) : Bool := a.num * (b.den : Int) < b.num * (a.den : Int)

/-- Sum of a list of fractions, left fold from `0` as Python `sum` does. -/
def fltSum (l : List Flt) : Flt := l.foldl Flt.add (Flt.ofInt 0)

/-- Numeric value of a list of decimal digit characters. -/
def digitsVal (l : List Char) : Nat :=
  l.foldl (fun n c => 10 * n + (c.toNat - 48)) 0

/-- Longest digit prefix of a character list, and the rest. -/
def spanDigits : List Char → List Char × List Char
  | [] => ([], [])
  | c :: cs =>
    if c.isDigit then
      let (d, r) := spanDigits cs
      (c :: d, r)
    else ([], c :: cs)

/-- Exponent suffix of a Python float literal (after `e`/`E`):
models the tail of CPython `float()` parsing. -/
def pyExpTail (mant : Int) (fden : Nat) (cs : List Char) : Option Flt :=
  let (epos, cs1) : Bool × List Char :=
    match cs with
    | '-' :: t => (false, t)
    | '+' :: t => (true, t)
    | t => (true, t)
  let (ed, cs2) := spanDigits cs1
  if ed.isEmpty then none
  else if ¬ cs2.isEmpty then none
  else if epos then some ⟨mant * ((10 ^ digitsVal ed : Nat) : Int), fden⟩
  else some ⟨mant, fden * 10 ^ digitsVal ed⟩

/-- Core of CPython `float(s)` on an already-stripped character list:
optional sign, integer part, optional fractional part, optional
exponent.  (We model ordinary decimal literals; `inf`/`nan` and digit
underscores do not occur in transaction data.) -/
def pyFloatCore (cs : List Char) : Option Flt :=
  let (sgn, cs1) : Int × List Char :=
    match cs with
    | '-' :: t => (-1, t)
    | '+' :: t => (1, t)
    | t => (1, t)
  let (ip, cs2) := spanDigits cs1
  let (fp, cs3) : List Char × List Char :=
    match cs2 with
    | '.' :: t => spanDigits t
    | t => ([], t)
  if ip.isEmpty ∧ fp.isEmpty then none
  else
    let mant : Int := sgn * ((digitsVal (ip ++ fp) : Nat) : Int)
    let fden : Nat := 10 ^ fp.length
    match cs3 with
    | [] => some ⟨mant, fden⟩
    | 'e' :: t => pyExpTail mant fden t
    | 'E' :: t => pyExpTail mant fden t
    | _ => none

/-- Python whitespace as stripped by `str.strip()`. -/
def isSpaceChar (c : Char) : Bool :=
  c == ' ' || c == '\t' || c == '\n' || c == '\r' || c == '\x0b' || c == '\x0c'

/-- Strip whitespace from both ends of a character list. -/
def trimChars (l : List Char) : List Char :=
  ((l.dropWhile isSpaceChar).reverse.dropWhile isSpaceChar).reverse

/-- Python `str.strip()`. -/
def pyStrip (s : String) : String := ⟨trimChars s.toList⟩

/-- Python `float(s)` (which strips whitespace itself). -/
def pyFloat (s : String) : Option Flt := pyFloatCore (trimChars s.toList)

/-- Does `l` start with `pat`? -/
def listStartsWith : List Char → List Char → Bool
  | [], _ => true
  | _ :: _, [] => false
  | p :: ps, c :: cs => p == c && listStartsWith ps cs

/-- Does `l` contain `pat` as a contiguous sublist? -/
def listContainsSub (pat : List Char) : List Char → Bool
  | [] => pat.isEmpty
  | c :: t => listStartsWith pat (c :: t) || listContainsSub pat t

/-- Python `pat in s` on strings. -/
def strContains (s pat : String) : Bool := listContainsSub pat.toList s.toList

/-- Leap year test of the Gregorian calendar. -/
def isLeapYear (y : Nat) : Bool := y % 4 == 0 && (y % 100 != 0 || y % 400 == 0)

/-- Month lengths of a non-leap year. -/
def monthLengths : List Nat := [31, 28, 31, 30, 31, 30, 31, 31, 30, 31, 30, 31]

/-- Number of days in month `m` of year `y`. -/
def monthLen (y m : Nat) : Nat :=
  if m = 2 ∧ isLeapYear y then 29 else monthLengths.getD (m - 1) 0

/-- Days of year `y` that precede month `m`. -/
def daysBeforeMonth (y m : Nat) : Nat :=
  ((List.range (m - 1)).map (fun i => monthLen y (i + 1))).sum

/-- Proleptic-Gregorian day ordinal of a calendar date, as computed by
Python's `datetime.toordinal` (day 1 = 0001-01-01). -/
def toOrdinal (y m d : Nat) : Nat :=
  365 * (y - 1) + (y - 1) / 4 - (y - 1) / 100 + (y - 1) / 400 + daysBeforeMonth y m + d

/-- Split a character list at `'/'` separators. -/
def splitSlash : List Char → List (List Char)
  | [] => [[]]
  | '/' :: t => [] :: splitSlash t
  | c :: t =>
    match splitSlash t with
    | [] => [[c]]
    | p :: ps => (c :: p) :: ps

/-- `datetime.strptime(s, "%m/%d/%Y")`, returning the day ordinal of the
parsed date: the string must be month `/` day `/` four-digit year, with
month and day of one or two digits, and the date must be valid. -/
def strptimeMDY (s : String) : Option Nat :=
  match splitSlash s.toList with
  | [ms, ds, ys] =>
    if (ms.all Char.isDigit ∧ 1 ≤ ms.length ∧ ms.length ≤ 2) ∧
       (ds.all Char.isDigit ∧ 1 ≤ ds.length ∧ ds.length ≤ 2) ∧
       (ys.all Char.isDigit ∧ ys.length = 4) then
      let m := digitsVal ms
      let d := digitsVal ds
      let y := digitsVal ys
      if (1 ≤ m ∧ m ≤ 12) ∧ 1 ≤ y ∧ (1 ≤ d ∧ d ≤ monthLen y m) then
        some (toOrdinal y m d)
      else none
    else none
  | _ => none

/-- A parsed transaction record: what `parse_transactions` appends to
`merchant_data[desc]` for one surviving row (the three parallel lists
`dates`, `amounts`, `charges` of the source are always extended in
lockstep, so one record list carries all of them). -/
structure Txn where
  date : Nat
  amount : Flt
deriving Repr, DecidableEq

/-- The uncaught exceptions the embedded fragment can raise. -/
inductive PyErr where
  /-- `row['Description 1']` with the column absent (raised outside the
  row-level `try`). -/
  | keyError
deriving Repr, DecidableEq

/-- One CSV row as produced by `csv.DictReader`: each expected column is
present (`some`) or missing (`none`, access raises). -/
structure Row where
  desc1 : Option String
  txnDate : Option String
  cad : Option String
  usd : Option String
deriving Repr, DecidableEq

/-- The skip test of line 116 of the source: empty description or one of
the non-subscription patterns. -/
def skipDesc (desc : String) : Bool :=
  desc == "" || strContains desc "PAYMENT - THANK YOU" ||
    strContains desc "PURCHASE INTEREST" || strContains desc "OVERLIMIT FEE"

/-- The body of the row-level `try` block (lines 119–126): `none` models
an exception caught by the bare `except` (row discarded); `some none`
models the `if amount:` test failing (empty amount, nothing appended);
`some (some t)` is a parsed record. -/
def tryParseRow (row : Row) : Option (Option Txn) := do
  let dstr ← row.txnDate
  let date ← strptimeMDY dstr
  let cadRaw ← row.cad
  let amtStr ←
    if pyStrip cadRaw ≠ "" then some (pyStrip cadRaw)
    else row.usd.map pyStrip
  if amtStr ≠ "" then
    let a ← pyFloat amtStr
    pure (some ⟨date, a⟩)
  else
    pure none

/-- Append a record to the merchant's group of the insertion-ordered
association list (models `merchant_data[desc][...].append(...)` on a
`defaultdict`, whose iteration order is insertion order). -/
def addTxn : List (String × List Txn) → String → Txn → List (String × List Txn)
  | [], d, t => [(d, [t])]
  | (k, ts) :: rest, d, t =>
    if k = d then (k, ts ++ [t]) :: rest else (k, ts) :: addTxn rest d t

/-- Process one CSV row (lines 112–128 of the source).  The
`Description 1` access is outside the `try`, so a missing column is a
fatal `KeyError`; everything that fails inside the `try` just leaves the
groups unchanged. -/
def processRow (st : List (String × List Txn)) (row : Row) :
    Except PyErr (List (String × List Txn)) :=
  match row.desc1 with
  | none => .error .keyError
  | some raw =>
    let desc := pyStrip raw
    if skipDesc desc then .ok st
    else
      match tryParseRow row with
      | none => .ok st
      | some none => .ok st
      | some (some t) => .ok (addTxn st desc t)

/-- Scan all rows, building merchant groups (the CSV loop of
`parse_transactions`). -/
def buildGroups (rows : List Row) : Except PyErr (List (String × List Txn)) :=
  rows.foldlM processRow []

/-- The merchant's dates sorted ascending (`sorted(data['dates'])`). -/
def sortedDates (txns : List Txn) : List Nat :=
  List.insertionSort (· ≤ ·) (txns.map Txn.date)

/-- Day gaps between consecutive elements (`dates_sorted[i] -
dates_sorted[i-1]` for `i = 1..`). -/
def gaps : List Nat → List Int
  | a :: b :: t => ((b : Int) - (a : Int)) :: gaps (b :: t)
  | _ => []

/-- `[abs(a) for a in data['amounts'] if a < 0]` (line 135). -/
def absCharges (txns : List Txn) : List Flt :=
  ((txns.map Txn.amount).filter (fun a => a.blt (Flt.ofInt 0))).map Flt.abs

/-- The `intervals` list of line 142: day gaps between consecutive
sorted dates of all the merchant's records. -/
def intervalsOf (txns : List Txn) : List Int := gaps (sortedDates txns)

/-- `avg_interval` of line 143: mean of the day gaps of all the
merchant's dates, `30` if there are no gaps. -/
def avgIntervalOf (txns : List Txn) : Flt :=
  if (intervalsOf txns).isEmpty then Flt.ofInt 30
  else (Flt.ofInt (intervalsOf txns).sum).divNat (intervalsOf txns).length

/-- `dates_sorted[-1]` (line 139); only evaluated on groups with at
least three records, so the default never fires. -/
def lastDateOf (txns : List Txn) : Nat := (sortedDates txns).getLast?.getD 0

/-- The fuel-indexed embedding of the prediction loop (lines 146–148):
`next_billing = last_date + interval; while next_billing < TODAY:
next_billing += interval`.  `none` for every fuel means the source loop
does not terminate. -/
def billingLoop : Nat → Flt → Flt → Flt → Option Flt
  | 0, _, _, _ => none
  | fuel + 1, nb, itv, now =>
    if nb.blt now then billingLoop fuel (nb.add itv) itv now else some nb

/-- The merchant's negative-amount records sorted by date, most recent
first (lines 151–152; Python's sort is stable). -/
def chargesSortedDesc (txns : List Txn) : List Txn :=
  List.insertionSort (fun a b => b.date ≤ a.date)
    (txns.filter (fun t => t.amount.blt (Flt.ofInt 0)))

/-- One subscription summary (the dict appended at lines 154–161). -/
structure Summary where
  merchant : String
  count : Nat
  avg_amount : Flt
  next_billing : Option Flt
  interval : Flt
  charges : List Txn
deriving Repr, DecidableEq

/-- Lines 133–161: build the summary for one merchant group, `none`
when the group does not qualify (fewer than 3 records, or no negative
amount). -/
def mkSummary (now : Flt) (fuel : Nat) (merchant : String) (txns : List Txn) :
    Option Summary :=
  if 3 ≤ txns.length then
    if (absCharges txns).isEmpty then none
    else
      some
        { merchant := merchant
          count := txns.length
          avg_amount := (fltSum (absCharges txns)).divNat (absCharges txns).length
          next_billing :=
            billingLoop fuel ((Flt.ofInt (lastDateOf txns)).add (avgIntervalOf txns))
              (avgIntervalOf txns) now
          interval := avgIntervalOf txns
          charges := chargesSortedDesc txns }
  else none

/-- Descending-count order used by `recurring.sort(key=lambda x:
x['count'], reverse=True)`. -/
def byCountDesc (a b : Summary) : Prop := b.count ≤ a.count

instance : DecidableRel byCountDesc := fun _ _ => Nat.decLe _ _

instance : IsTotal Summary byCountDesc := ⟨fun a b => Nat.le_total b.count a.count⟩

instance : IsTrans Summary byCountDesc := ⟨fun _ _ _ h1 h2 => le_trans h2 h1⟩

/-- The summaries in encounter order of their merchants (the `for
merchant, data in merchant_data.items()` loop, before the final sort). -/
def encounterSummaries (now : Flt) (fuel : Nat)
    (gs : List (String × List Txn)) : List Summary :=
  gs.filterMap (fun g => mkSummary now fuel g.1 g.2)

/-- The final sort of line 164: stable, by descending count (Python's
`list.sort` with `reverse=True` is stable). -/
def summarize (now : Flt) (fuel : Nat) (gs : List (String × List Txn)) :
    List Summary :=
  List.insertionSort byCountDesc (encounterSummaries now fuel gs)

/-- `parse_transactions`, with the rows already read from the file,
`TODAY` passed explicitly, and fuel for the prediction loop. -/
def parseTransactions (rows : List Row) (now : Flt) (fuel : Nat) :
    Except PyErr (List Summary) :=
  (buildGroups rows).map (summarize now fuel)

/-- The summaries of a run when it did not raise. -/
def okSummaries : Except PyErr (List Summary) → Option (List Summary)
  | .ok l => some l
  | .error _ => none

/-- The `next_billing` fields of a run's summaries. -/
def billings (e : Except PyErr (List Summary)) : Option (List (Option Flt)) :=
  (okSummaries e).map (List.map Summary.next_billing)

/-- The `interval` fields of a run's summaries. -/
def intervals (e : Except PyErr (List Summary)) : Option (List Flt) :=
  (okSummaries e).map (List.map Summary.interval)

/-- The browser-local storage key of the generated page
(`localStorage.getItem('completed')` in the embedded script). -/
def localStorageKey : String := "completed"

/-- The per-item data of the rendered checklist that the persisted state
depends on: the `data-id` index and the merchant. -/
structure RenderItem where
  dataId : Nat
  merchant : String
deriving Repr, DecidableEq

/-- Line 247 of the source: `for i, item in enumerate(subscriptions[:30])`,
each item rendered with `data-id="{i}"`. -/
def renderItems (subs : List Summary) : List RenderItem :=
  (subs.take 30).enum.map (fun p => ⟨p.1, p.2.merchant⟩)

/-- Latest date among the merchant's negative-amount records: the
"last charge date" in the spec's words (the source instead uses
`dates_sorted[-1]`, the latest date of all records). -/
def lastChargeDate (txns : List Txn) : Option Nat :=
  ((txns.filter (fun t => t.amount.blt (Flt.ofInt 0))).map Txn.date).max?

/-- The merchant's charge dates (dates of negative-amount records)
sorted ascending, as the spec's words for claim C4 require. -/
def chargeDatesSorted (txns : List Txn) : List Nat :=
  List.insertionSort (· ≤ ·)
    ((txns.filter (fun t => t.amount.blt (Flt.ofInt 0))).map Txn.date)

/-- Modelled from the spec's words for claim C4: the mean of the day
gaps between consecutive charge dates (dates of negative-amount
records) sorted ascending, `30` when fewer than two such dates exist. -/
def specChargeIntervalMean (txns : List Txn) : ℚ :=
  if (gaps (chargeDatesSorted txns)).isEmpty then 30
  else ((gaps (chargeDatesSorted txns)).sum : ℚ) / ((gaps (chargeDatesSorted txns)).length : ℚ)

/-- The absolute values of the merchant's negative-amount records, as
rationals: the list whose mean the spec's words for claim C7 take. -/
def specAbsCharges (txns : List Txn) : List ℚ :=
  (txns.filter (fun t => t.amount.blt (Flt.ofInt 0))).map (fun t => |t.amount.val|)

/-- Modelled from the spec's words for claim C7: the mean of the
absolute values of the merchant's negative-amount records. -/
def specMeanAbsCharges (txns : List Txn) : ℚ :=
  (specAbsCharges txns).sum / ((specAbsCharges txns).length : ℚ)

/-! ## Value lemmas for the fraction layer -/

theorem Flt.val_ofInt (n : Int) : (Flt.ofInt n).val = (n : ℚ) := by
  simp [Flt.val, Flt.ofInt]

theorem Flt.val_add {a b : Flt} (ha : a.den ≠ 0) (hb : b.den ≠ 0) :
    (a.add b).val = a.val + b.val := by
  have ha' : ((a.den : ℚ)) ≠ 0 := by exact_mod_cast ha
  have hb' : ((b.den : ℚ)) ≠ 0 := by exact_mod_cast hb
  simp only [Flt.val, Flt.add]
  push_cast
  field_simp

theorem Flt.val_divNat (a : Flt) (n : Nat) : (a.divNat n).val = a.val / (n : ℚ) := by
  simp [Flt.val, Flt.divNat, div_div]

theorem Flt.val_abs (a : Flt) : (Flt.abs a).val = |a.val| := by
  simp only [Flt.val, Flt.abs, abs_div]
  rw [abs_of_nonneg (by positivity : (0 : ℚ) ≤ (a.den : ℚ))]
  push_cast
  rfl

theorem Flt.blt_iff {a b : Flt} (ha : 0 < a.den) (hb : 0 < b.den) :
    a.blt b = true ↔ a.val < b.val := by
  have ha' : (0 : ℚ) < (a.den : ℚ) := by exact_mod_cast ha
  have hb' : (0 : ℚ) < (b.den : ℚ) := by exact_mod_cast hb
  rw [Flt.blt, decide_eq_true_eq, Flt.val, Flt.val, div_lt_div_iff₀ ha' hb']
  constructor <;> intro h <;> exact_mod_cast h

theorem Flt.add_den (a b : Flt) : (a.add b).den = a.den * b.den := rfl

theorem Flt.ofInt_den (n : Int) : (Flt.ofInt n).den = 1 := rfl

theorem Flt.divNat_den (a : Flt) (n : Nat) : (a.divNat n).den = a.den * n := rfl

/-! ## The prediction loop -/

theorem billingLoop_not_blt {itv now : Flt} :
    ∀ {fuel : Nat} {nb x : Flt}, billingLoop fuel nb itv now = some x →
      x.blt now = false
  | 0, _, _, h => by simp [billingLoop] at h
  | fuel + 1, nb, x, h => by
    rw [billingLoop] at h
    by_cases hc : nb.blt now
    · rw [if_pos hc] at h
      exact billingLoop_not_blt h
    · rw [if_neg hc] at h
      cases h
      simpa using hc

theorem billingLoop_den_pos {itv now : Flt} (hitv : 0 < itv.den) :
    ∀ {fuel : Nat} {nb x : Flt}, 0 < nb.den →
      billingLoop fuel nb itv now = some x → 0 < x.den
  | 0, _, _, _, h => by simp [billingLoop] at h
  | fuel + 1, nb, x, hnb, h => by
    rw [billingLoop] at h
    by_cases hc : nb.blt now
    · rw [if_pos hc] at h
      exact billingLoop_den_pos hitv (by rw [Flt.add_den]; exact Nat.mul_pos hnb hitv) h
    · rw [if_neg hc] at h
      cases h
      exact hnb

theorem billingLoop_val {itv now : Flt} (hitv : 0 < itv.den) :
    ∀ {fuel : Nat} {nb x : Flt}, 0 < nb.den →
      billingLoop fuel nb itv now = some x →
      ∃ k : Nat, x.val = nb.val + (k : ℚ) * itv.val
  | 0, _, _, _, h => by simp [billingLoop] at h
  | fuel + 1, nb, x, hnb, h => by
    rw [billingLoop] at h
    by_cases hc : nb.blt now
    · rw [if_pos hc] at h
      obtain ⟨k, hk⟩ :=
        @billingLoop_val itv now hitv fuel (nb.add itv) x
          (by rw [Flt.add_den]; exact Nat.mul_pos hnb hitv) h
      refine ⟨k + 1, ?_⟩
      rw [hk, Flt.val_add (Nat.pos_iff_ne_zero.mp hnb) (Nat.pos_iff_ne_zero.mp hitv)]
      push_cast
      ring
    · rw [if_neg hc] at h
      cases h
      exact ⟨0, by push_cast; ring⟩

theorem billingLoop_zero_itv {itv now : Flt} (hnum : itv.num = 0) (hden : 0 < itv.den) :
    ∀ (fuel : Nat) {nb : Flt}, nb.blt now = true →
      billingLoop fuel nb itv now = none
  | 0, _, _ => rfl
  | fuel + 1, nb, h => by
    rw [billingLoop, if_pos h]
    apply billingLoop_zero_itv hnum hden fuel
    simp only [Flt.blt, Flt.add, decide_eq_true_eq] at h ⊢
    rw [hnum]
    have hd : (0 : Int) < (itv.den : Int) := by exact_mod_cast hden
    push_cast
    nlinarith [mul_lt_mul_of_pos_right h hd]

/-! ## Structure of the aggregator -/

theorem avgIntervalOf_den_pos (txns : List Txn) : 0 < (avgIntervalOf txns).den := by
  rw [avgIntervalOf]
  by_cases h : (intervalsOf txns).isEmpty
  · rw [if_pos h]
    exact Nat.one_pos
  · rw [if_neg h, Flt.divNat_den, Flt.ofInt_den, one_mul]
    exact List.length_pos.mpr (by simpa using h)

theorem mkSummary_eq_some {now : Flt} {fuel : Nat} {m : String} {txns : List Txn}
    {s : Summary} (h : mkSummary now fuel m txns = some s) :
    3 ≤ txns.length ∧ (absCharges txns).isEmpty = false ∧
      s = { merchant := m
            count := txns.length
            avg_amount := (fltSum (absCharges txns)).divNat (absCharges txns).length
            next_billing :=
              billingLoop fuel ((Flt.ofInt (lastDateOf txns)).add (avgIntervalOf txns))
                (avgIntervalOf txns) now
            interval := avgIntervalOf txns
            charges := chargesSortedDesc txns } := by
  rw [mkSummary] at h
  split at h
  · next h3 =>
    split at h
    · simp at h
    · next hne =>
      cases h
      exact ⟨h3, by simpa using hne, rfl⟩
  · simp at h

theorem mkSummary_isSome_of {now : Flt} {fuel : Nat} (m : String) {txns : List Txn}
    (h3 : 3 ≤ txns.length) (hne : (absCharges txns).isEmpty = false) :
    (mkSummary now fuel m txns).isSome := by
  rw [mkSummary, if_pos h3, hne]
  rfl

theorem absCharges_isEmpty_false_iff (txns : List Txn) :
    (absCharges txns).isEmpty = false ↔
      ∃ t ∈ txns, t.amount.blt (Flt.ofInt 0) = true := by
  simp [absCharges, List.isEmpty_iff, List.filter_eq_nil_iff]

theorem parse_ok_iff {rows : List Row} {now : Flt} {fuel : Nat} {out : List Summary} :
    parseTransactions rows now fuel = .ok out ↔
      ∃ gs, buildGroups rows = .ok gs ∧ out = summarize now fuel gs := by
  rw [parseTransactions]
  cases hb : buildGroups rows with
  | error e => simp [Except.map]
  | ok gs => simp [Except.map, eq_comm]

theorem mem_summarize_iff {now : Flt} {fuel : Nat} {gs : List (String × List Txn)}
    {s : Summary} :
    s ∈ summarize now fuel gs ↔ ∃ g ∈ gs, mkSummary now fuel g.1 g.2 = some s := by
  rw [summarize, List.mem_insertionSort, encounterSummaries, List.mem_filterMap]

/-! ## Stability of the final sort -/

theorem filter_orderedInsert_byCount (x : Summary) (c : Nat) :
    ∀ l : List Summary,
      (List.orderedInsert byCountDesc x l).filter (fun s => s.count == c) =
        if x.count = c then x :: l.filter (fun s => s.count == c)
        else l.filter (fun s => s.count == c)
  | [] => by
    by_cases hx : x.count = c <;>
      simp [List.orderedInsert, List.filter_cons, hx]
  | b :: t => by
    rw [List.orderedInsert]
    by_cases hr : byCountDesc x b
    · rw [if_pos hr]
      by_cases hx : x.count = c <;> simp [List.filter_cons, hx]
    · rw [if_neg hr]
      have hlt : x.count < b.count := Nat.lt_of_not_le hr
      rw [List.filter_cons, List.filter_cons, filter_orderedInsert_byCount x c t]
      by_cases hx : x.count = c
      · have hb : (b.count == c) = false := by
          simp
          omega
        simp [hx, hb]
      · simp [hx]

theorem filter_insertionSort_byCount (c : Nat) :
    ∀ l : List Summary,
      (List.insertionSort byCountDesc l).filter (fun s => s.count == c) =
        l.filter (fun s => s.count == c)
  | [] => rfl
  | a :: t => by
    rw [List.insertionSort, filter_orderedInsert_byCount, filter_insertionSort_byCount c t,
      List.filter_cons]
    by_cases hx : a.count = c <;> simp [hx]

/-! ## Row-level error handling -/

theorem processRow_ok_of_desc {st : List (String × List Txn)} {row : Row}
    (h : row.desc1.isSome) : ∃ st', processRow st row = .ok st' := by
  rcases hd : row.desc1 with _ | raw
  · rw [hd] at h
    simp at h
  · by_cases hskip : skipDesc (pyStrip raw)
    · exact ⟨st, by simp [processRow, hd, hskip]⟩
    · rcases htp : tryParseRow row with _ | o
      · exact ⟨st, by simp [processRow, hd, hskip, htp]⟩
      · rcases o with _ | t
        · exact ⟨st, by simp [processRow, hd, hskip, htp]⟩
        · exact ⟨addTxn st (pyStrip raw) t, by simp [processRow, hd, hskip, htp]⟩

theorem foldlM_processRow_ok :
    ∀ (rows : List Row) (st : List (String × List Txn)),
      (∀ r ∈ rows, r.desc1.isSome) →
      ∃ gs, rows.foldlM processRow st = .ok gs
  | [], st, _ => ⟨st, rfl⟩
  | r :: t, st, h => by
    obtain ⟨st', hst'⟩ := @processRow_ok_of_desc st r (h r (by simp))
    obtain ⟨gs, hgs⟩ := foldlM_processRow_ok t st' (fun r hr => h r (by simp [hr]))
    exact ⟨gs, by rw [List.foldlM_cons, hst']; exact hgs⟩

theorem foldlM_processRow_id :
    ∀ (rows : List Row) (st : List (String × List Txn)),
      (∀ r ∈ rows, ∀ st', processRow st' r = .ok st') →
      rows.foldlM processRow st = .ok st
  | [], st, _ => rfl
  | r :: t, st, h => by
    rw [List.foldlM_cons, h r (by simp) st]
    exact foldlM_processRow_id t st (fun r hr st' => h r (by simp [hr]) st')

/-! ## Sums, gaps, lengths -/

theorem foldl_add_val :
    ∀ (l : List Flt) (acc : Flt), 0 < acc.den → (∀ a ∈ l, 0 < a.den) →
      0 < (l.foldl Flt.add acc).den ∧
        (l.foldl Flt.add acc).val = acc.val + (l.map Flt.val).sum
  | [], _, hacc, _ => ⟨hacc, by simp⟩
  | a :: t, acc, hacc, h => by
    have ha : 0 < a.den := h a (by simp)
    have hd : 0 < (acc.add a).den := by
      rw [Flt.add_den]
      exact Nat.mul_pos hacc ha
    obtain ⟨h1, h2⟩ := foldl_add_val t (acc.add a) hd (fun b hb => h b (by simp [hb]))
    rw [List.foldl_cons]
    refine ⟨h1, ?_⟩
    rw [h2, Flt.val_add (Nat.pos_iff_ne_zero.mp hacc) (Nat.pos_iff_ne_zero.mp ha),
      List.map_cons, List.sum_cons]
    ring

theorem fltSum_den_pos {l : List Flt} (h : ∀ a ∈ l, 0 < a.den) : 0 < (fltSum l).den :=
  (foldl_add_val l (Flt.ofInt 0) Nat.one_pos h).1

theorem fltSum_val {l : List Flt} (h : ∀ a ∈ l, 0 < a.den) :
    (fltSum l).val = (l.map Flt.val).sum := by
  have h2 := (foldl_add_val l (Flt.ofInt 0) Nat.one_pos h).2
  rw [fltSum, h2, Flt.val_ofInt]
  simp

theorem gaps_length : ∀ l : List Nat, (gaps l).length = l.length - 1
  | [] => rfl
  | [_] => rfl
  | a :: b :: t => by
    simp only [gaps, List.length_cons, gaps_length (b :: t)]
    omega

theorem sortedDates_length (txns : List Txn) : (sortedDates txns).length = txns.length := by
  rw [sortedDates, List.length_insertionSort, List.length_map]

theorem intervalsOf_ne_nil {txns : List Txn} (h3 : 3 ≤ txns.length) :
    (intervalsOf txns).isEmpty = false := by
  have hl : (intervalsOf txns).length = txns.length - 1 := by
    rw [intervalsOf, gaps_length, sortedDates_length]
  rcases hg : intervalsOf txns with _ | ⟨x, xs⟩
  · rw [hg] at hl
    simp at hl
    omega
  · rfl

theorem avgIntervalOf_val {txns : List Txn} (h3 : 3 ≤ txns.length) :
    (avgIntervalOf txns).val =
      ((intervalsOf txns).sum : ℚ) / ((intervalsOf txns).length : ℚ) := by
  rw [avgIntervalOf, if_neg (by simp [intervalsOf_ne_nil h3]), Flt.val_divNat, Flt.val_ofInt]

deriving instance DecidableEq for Except

theorem absCharges_eq (txns : List Txn) :
    absCharges txns =
      (txns.filter (fun t => t.amount.blt (Flt.ofInt 0))).map (fun t => Flt.abs t.amount) := by
  rw [absCharges, List.filter_map, List.map_map]
  rfl

/-! ## Concrete inputs

Row literals used to instantiate the theorems: a CSV row builder with
all columns present, and the specific transaction histories exercising
each claim.  Day ordinals: `toOrdinal 2024 1 1 = 738886`. -/

/-- A fully-populated CSV row (description, date, CAD amount, empty USD). -/
def mkRow (d dt amt : String) : Row := ⟨some d, some dt, some amt, some ""⟩

/-- Three monthly charges, 30 days apart. -/
def rowsStrict : List Row :=
  [mkRow "ACME" "1/1/2024" "-9.99", mkRow "ACME" "1/31/2024" "-9.99",
   mkRow "ACME" "3/1/2024" "-9.99"]

/-- The summary `parse_transactions` produces for `rowsStrict` whenever
`now ≤ 738976` (the loop body never runs). -/
def sStrict : Summary :=
  { merchant := "ACME", count := 3, avg_amount := ⟨29970000, 3000000⟩,
    next_billing := some ⟨1477952, 2⟩, interval := ⟨60, 2⟩,
    charges := [⟨738946, ⟨-999, 100⟩⟩, ⟨738916, ⟨-999, 100⟩⟩, ⟨738886, ⟨-999, 100⟩⟩] }

/-- Three same-day charges: the average interval is zero. -/
def rowsZero : List Row :=
  [mkRow "SPOTIFY" "1/15/2024" "-9.99", mkRow "SPOTIFY" "1/15/2024" "-9.99",
   mkRow "SPOTIFY" "1/15/2024" "-9.99"]

/-- One charge followed by two credits on later dates. -/
def rowsAllDates : List Row :=
  [mkRow "NETFLIX" "1/1/2024" "-5", mkRow "NETFLIX" "1/11/2024" "5",
   mkRow "NETFLIX" "1/31/2024" "5"]

/-- The merchant group `rowsAllDates` builds. -/
def txnsNetflix : List Txn :=
  [⟨738886, ⟨-5, 1⟩⟩, ⟨738896, ⟨5, 1⟩⟩, ⟨738916, ⟨5, 1⟩⟩]

/-- The summary for `rowsAllDates` at `now = 738960`. -/
def sNetflix : Summary :=
  { merchant := "NETFLIX", count := 3, avg_amount := ⟨5, 1⟩,
    next_billing := some ⟨5911688, 8⟩, interval := ⟨30, 2⟩,
    charges := [⟨738886, ⟨-5, 1⟩⟩] }

/-- Two charges 10 days apart, then a credit 50 days later. -/
def rowsCredit : List Row :=
  [mkRow "ACMECO" "1/1/2024" "-10", mkRow "ACMECO" "1/11/2024" "-10",
   mkRow "ACMECO" "3/1/2024" "10"]

/-- The merchant group `rowsCredit` builds. -/
def txnsAcmeco : List Txn :=
  [⟨738886, ⟨-10, 1⟩⟩, ⟨738896, ⟨-10, 1⟩⟩, ⟨738946, ⟨10, 1⟩⟩]

/-- A row whose `Description 1` column is missing (wrong header). -/
def rowNoDescColumn : Row := ⟨none, some "1/1/2024", some "-5.00", some ""⟩

/-- A row with a description but an unparseable date. -/
def rowBadDate : Row := ⟨some "ACME", some "not-a-date", some "-5.00", some ""⟩

/-- Three merchants: `AAA` with four charges, `BBB` and `CCC` tied at
three charges each, `BBB` encountered first. -/
def rowsW : List Row :=
  [mkRow "BBB" "1/1/2024" "-3", mkRow "AAA" "1/1/2024" "-2", mkRow "AAA" "2/1/2024" "-2",
   mkRow "CCC" "1/5/2024" "-7", mkRow "BBB" "2/1/2024" "-3", mkRow "CCC" "2/5/2024" "-7",
   mkRow "AAA" "3/1/2024" "-2", mkRow "BBB" "3/1/2024" "-3", mkRow "CCC" "3/5/2024" "-7",
   mkRow "AAA" "4/1/2024" "-2"]

/-- The merchant groups `rowsW` builds (encounter order). -/
def gsW : List (String × List Txn) :=
  [("BBB", [⟨738886, ⟨-3, 1⟩⟩, ⟨738917, ⟨-3, 1⟩⟩, ⟨738946, ⟨-3, 1⟩⟩]),
   ("AAA", [⟨738886, ⟨-2, 1⟩⟩, ⟨738917, ⟨-2, 1⟩⟩, ⟨738946, ⟨-2, 1⟩⟩, ⟨738977, ⟨-2, 1⟩⟩]),
   ("CCC", [⟨738890, ⟨-7, 1⟩⟩, ⟨738921, ⟨-7, 1⟩⟩, ⟨738950, ⟨-7, 1⟩⟩])]

/-- The output of `parse_transactions` on `rowsW` at `now = 739000`. -/
def outW : List Summary :=
  [{ merchant := "AAA", count := 4, avg_amount := ⟨8, 4⟩,
     next_billing := some ⟨2217022, 3⟩, interval := ⟨91, 3⟩,
     charges := [⟨738977, ⟨-2, 1⟩⟩, ⟨738946, ⟨-2, 1⟩⟩, ⟨738917, ⟨-2, 1⟩⟩, ⟨738886, ⟨-2, 1⟩⟩] },
   { merchant := "BBB", count := 3, avg_amount := ⟨9, 3⟩,
     next_billing := some ⟨2956024, 4⟩, interval := ⟨60, 2⟩,
     charges := [⟨738946, ⟨-3, 1⟩⟩, ⟨738917, ⟨-3, 1⟩⟩, ⟨738886, ⟨-3, 1⟩⟩] },
   { merchant := "CCC", count := 3, avg_amount := ⟨21, 3⟩,
     next_billing := some ⟨2956040, 4⟩, interval := ⟨60, 2⟩,
     charges := [⟨738950, ⟨-7, 1⟩⟩, ⟨738921, ⟨-7, 1⟩⟩, ⟨738890, ⟨-7, 1⟩⟩] }]

/-! ## Claims -/

/-- C1 (amended): for every merchant group that yields a subscription
summary, the predicted next billing date is never strictly before the
"now" timestamp: the loop stops as soon as `next_billing < TODAY`
fails, so the result satisfies `now ≤ next_billing`, with equality
possible when `now` falls exactly on a predicted date. -/
theorem nextBilling_ge_now {rows : List Row} {now : Flt} {fuel : Nat}
    {out : List Summary} {s : Summary} {nb : Flt}
    (hp : parseTransactions rows now fuel = .ok out) (hs : s ∈ out)
    (hnb : s.next_billing = some nb) (hnow : 0 < now.den) :
    now.val ≤ nb.val := by
  obtain ⟨gs, hb, hout⟩ := parse_ok_iff.mp hp
  subst hout
  rw [mem_summarize_iff] at hs
  obtain ⟨g, hg, hmk⟩ := hs
  obtain ⟨h3, hne, hrec⟩ := mkSummary_eq_some hmk
  rw [hrec] at hnb
  have hitv := avgIntervalOf_den_pos g.2
  have hnb0 : 0 < ((Flt.ofInt (lastDateOf g.2)).add (avgIntervalOf g.2)).den := by
    rw [Flt.add_den, Flt.ofInt_den, one_mul]
    exact hitv
  have hbltf := billingLoop_not_blt hnb
  have hdnb := billingLoop_den_pos hitv hnb0 hnb
  by_contra hlt
  push_neg at hlt
  have : nb.blt now = true := (Flt.blt_iff hdnb hnow).mpr hlt
  rw [hbltf] at this
  exact Bool.noConfusion this

/-- Witness for C1's amended theorem at `rowsStrict`, `now = 738900`. -/
theorem nextBilling_ge_now_witness :
    Flt.val ⟨738900, 1⟩ ≤ Flt.val ⟨1477952, 2⟩ :=
  @nextBilling_ge_now rowsStrict ⟨738900, 1⟩ 100 [sStrict] sStrict ⟨1477952, 2⟩
    (by decide) (by decide) (by decide) (by decide)

/-- C1 counterexample: with charges on days 738886, 738916, 738946
(interval 30) and `now` exactly equal to day 738976, the predicted
next billing date equals `now`, so it is not strictly later than
"now" as the claim states. -/
theorem nextBilling_strict_cex :
    billings (parseTransactions rowsStrict ⟨738976, 1⟩ 100) = some [some ⟨1477952, 2⟩] ∧
      ¬ (Flt.val ⟨738976, 1⟩ < Flt.val ⟨1477952, 2⟩) := by
  refine ⟨by decide, ?_⟩
  norm_num [Flt.val]

/-- C2: the prediction loop does not terminate on a qualifying group
whose records all share one date (`rowsZero`): the average interval is
zero, `next_billing` never changes, and for every amount of fuel the
loop yields no result — the source program hangs instead of
terminating as the claim states. -/
theorem zeroInterval_loop_never_returns (fuel : Nat) :
    billings (parseTransactions rowsZero ⟨738956, 1⟩ fuel) = some [none] := by
  have key : billings (parseTransactions rowsZero ⟨738956, 1⟩ fuel) =
      some [billingLoop fuel (Flt.add (Flt.ofInt 738900) ⟨0, 2⟩) ⟨0, 2⟩ ⟨738956, 1⟩] := rfl
  rw [key, @billingLoop_zero_itv ⟨0, 2⟩ ⟨738956, 1⟩ rfl (by decide) fuel
    (Flt.add (Flt.ofInt 738900) ⟨0, 2⟩) (by decide)]

/-- C3 counterexample: a file whose header lacks the `Description 1`
column makes `row['Description 1']` raise `KeyError` outside the
row-level `try`, so `parse_transactions` raises instead of returning
an empty list. -/
theorem missing_desc_column_raises :
    parseTransactions [rowNoDescColumn] ⟨0, 1⟩ 5 = .error .keyError := by decide

/-- C3 (amended): as long as every row has a `Description 1` field,
`parse_transactions` never raises — rows whose date or amount fail to
parse are skipped silently — and a file all of whose rows are skipped
yields the empty result list; but a missing `Description 1` column
raises an uncaught `KeyError`. -/
theorem rowErrors_swallowed (rows : List Row) (now : Flt) (fuel : Nat) :
    ((∀ r ∈ rows, r.desc1.isSome) → ∃ out, parseTransactions rows now fuel = .ok out) ∧
      ((∀ r ∈ rows, ∀ st, processRow st r = .ok st) →
        parseTransactions rows now fuel = .ok []) := by
  constructor
  · intro h
    obtain ⟨gs, hgs⟩ := foldlM_processRow_ok rows [] h
    exact ⟨summarize now fuel gs, parse_ok_iff.mpr ⟨gs, hgs, rfl⟩⟩
  · intro h
    have hgs : buildGroups rows = .ok [] := foldlM_processRow_id rows [] h
    exact parse_ok_iff.mpr ⟨[], hgs, rfl⟩

/-- Witness for C3's amended theorem: a file with one well-described
but undateable row parses to the empty list. -/
theorem rowErrors_swallowed_witness :
    parseTransactions [rowBadDate] ⟨0, 1⟩ 5 = .ok [] := by
  apply (rowErrors_swallowed [rowBadDate] ⟨0, 1⟩ 5).2
  intro r hr st
  rw [List.mem_singleton] at hr
  subst hr
  rfl

/-- C4 counterexample: for a qualifying group with one charge and two
later credits (`rowsAllDates`), the spec's value (mean of gaps between
charge dates, defaulting to 30 when fewer than two charge dates exist)
is 30, but the code computes the mean of the gaps of *all* record
dates, 15. -/
theorem interval_uses_all_dates_cex :
    intervals (parseTransactions rowsAllDates ⟨738960, 1⟩ 100) = some [⟨30, 2⟩] ∧
      buildGroups rowsAllDates = .ok [("NETFLIX", txnsNetflix)] ∧
      specChargeIntervalMean txnsNetflix = 30 ∧
      Flt.val ⟨30, 2⟩ ≠ 30 := by
  refine ⟨by decide, by decide, rfl, ?_⟩
  norm_num [Flt.val]

/-- C4 (amended): for every qualifying merchant group, the average
billing interval equals the mean of the day gaps between consecutive
dates of *all* the merchant's parsed records (charges and credits
alike) sorted ascending; the gap list is never empty for a qualifying
group (three or more records), so the default of 30 is unreachable
there. -/
theorem interval_mean_of_all_gaps {now : Flt} {fuel : Nat} {m : String}
    {txns : List Txn} {s : Summary} (h : mkSummary now fuel m txns = some s) :
    intervalsOf txns ≠ [] ∧
      s.interval.val = ((intervalsOf txns).sum : ℚ) / ((intervalsOf txns).length : ℚ) := by
  obtain ⟨h3, hne, hs⟩ := mkSummary_eq_some h
  constructor
  · intro hnil
    have hfalse := intervalsOf_ne_nil h3
    rw [hnil] at hfalse
    simp at hfalse
  · rw [hs]
    exact avgIntervalOf_val h3

/-- Witness for C4's amended theorem at the `rowsAllDates` group. -/
theorem interval_mean_of_all_gaps_witness :
    intervalsOf txnsNetflix ≠ [] ∧
      sNetflix.interval.val =
        ((intervalsOf txnsNetflix).sum : ℚ) / ((intervalsOf txnsNetflix).length : ℚ) :=
  @interval_mean_of_all_gaps ⟨738960, 1⟩ 100 "NETFLIX" txnsNetflix sNetflix (by decide)

/-- C5: a subscription summary is produced for a merchant exactly when
that merchant's group has at least three parsed records and at least
one of them has a negative amount. -/
theorem summary_iff_three_and_charge {rows : List Row} {now : Flt} {fuel : Nat}
    {out : List Summary} {gs : List (String × List Txn)}
    (hp : parseTransactions rows now fuel = .ok out)
    (hb : buildGroups rows = .ok gs) (m : String) :
    (∃ s ∈ out, s.merchant = m) ↔
      ∃ ts, (m, ts) ∈ gs ∧ 3 ≤ ts.length ∧
        ∃ t ∈ ts, t.amount.blt (Flt.ofInt 0) = true := by
  obtain ⟨gs', hb', hout⟩ := parse_ok_iff.mp hp
  rw [hb] at hb'
  injection hb' with hgs
  subst hgs
  subst hout
  constructor
  · rintro ⟨s, hs, hm⟩
    rw [mem_summarize_iff] at hs
    obtain ⟨g, hg, hmk⟩ := hs
    obtain ⟨h3, hne, hrec⟩ := mkSummary_eq_some hmk
    refine ⟨g.2, ?_, h3, (absCharges_isEmpty_false_iff g.2).mp hne⟩
    have hgm : g.1 = m := by
      rw [hrec] at hm
      exact hm
    rw [← hgm]
    exact hg
  · rintro ⟨ts, hmem, h3, hneg⟩
    have hne : (absCharges ts).isEmpty = false := (absCharges_isEmpty_false_iff ts).mpr hneg
    have hsome := @mkSummary_isSome_of now fuel m ts h3 hne
    obtain ⟨s, hs⟩ := Option.isSome_iff_exists.mp hsome
    obtain ⟨_, _, hrec⟩ := mkSummary_eq_some hs
    refine ⟨s, ?_, by rw [hrec]⟩
    rw [mem_summarize_iff]
    exact ⟨(m, ts), hmem, hs⟩

/-- Witness for C5 on `rowsW` at merchant `AAA`. -/
theorem summary_iff_three_and_charge_witness :
    (∃ s ∈ outW, s.merchant = "AAA") ↔
      ∃ ts, ("AAA", ts) ∈ gsW ∧ 3 ≤ ts.length ∧
        ∃ t ∈ ts, t.amount.blt (Flt.ofInt 0) = true :=
  @summary_iff_three_and_charge rowsW ⟨739000, 1⟩ 100 outW gsW
    (by decide) (by decide) "AAA"

/-- C6 counterexample: for `rowsCredit` (charges on days 738886 and
738896, then a credit on day 738946) the code predicts day 738976 =
latest *record* date + 30, which is not the last charge date (738896)
plus any positive whole number of 30-day intervals — it is off by 20
days, beyond any integer-day rounding. -/
theorem congruence_last_charge_cex :
    billings (parseTransactions rowsCredit ⟨738956, 1⟩ 100) = some [some ⟨1477952, 2⟩] ∧
      intervals (parseTransactions rowsCredit ⟨738956, 1⟩ 100) = some [⟨60, 2⟩] ∧
      buildGroups rowsCredit = .ok [("ACMECO", txnsAcmeco)] ∧
      lastChargeDate txnsAcmeco = some 738896 ∧
      ¬ ∃ k : ℕ, 1 ≤ k ∧
        Flt.val ⟨1477952, 2⟩ = (738896 : ℚ) + (k : ℚ) * Flt.val ⟨60, 2⟩ := by
  refine ⟨by decide, by decide, by decide, by decide, ?_⟩
  rintro ⟨k, hk, he⟩
  rw [show Flt.val ⟨1477952, 2⟩ = (738976 : ℚ) by norm_num [Flt.val],
    show Flt.val ⟨60, 2⟩ = (30 : ℚ) by norm_num [Flt.val]] at he
  have h30 : (k : ℚ) * 30 = 80 := by linarith
  have h30' : (k : ℤ) * 30 = 80 := by exact_mod_cast h30
  omega

/-- C6 (amended): for every produced summary with a predicted next
billing date, that date equals the latest date among *all* of the
merchant's parsed records (`dates_sorted[-1]`, charges and credits
alike) plus a positive whole number of average intervals. -/
theorem nextBilling_congruent_last_record_date {now : Flt} {fuel : Nat} {m : String}
    {txns : List Txn} {s : Summary} {nb : Flt}
    (h : mkSummary now fuel m txns = some s) (hnb : s.next_billing = some nb) :
    ∃ k : ℕ, 1 ≤ k ∧ nb.val = (lastDateOf txns : ℚ) + (k : ℚ) * s.interval.val := by
  obtain ⟨h3, hne, hs⟩ := mkSummary_eq_some h
  have hitv := avgIntervalOf_den_pos txns
  have hnb0 : 0 < ((Flt.ofInt (lastDateOf txns)).add (avgIntervalOf txns)).den := by
    rw [Flt.add_den, Flt.ofInt_den, one_mul]
    exact hitv
  rw [hs] at hnb
  obtain ⟨j, hj⟩ := billingLoop_val hitv hnb0 hnb
  have hsint : s.interval = avgIntervalOf txns := by rw [hs]
  refine ⟨j + 1, by omega, ?_⟩
  rw [hj, Flt.val_add (by rw [Flt.ofInt_den]; exact one_ne_zero)
    (Nat.pos_iff_ne_zero.mp hitv), Flt.val_ofInt, hsint]
  push_cast
  ring

/-- Witness for C6's amended theorem at the `rowsAllDates` group. -/
theorem nextBilling_congruent_witness :
    ∃ k : ℕ, 1 ≤ k ∧
      Flt.val ⟨5911688, 8⟩ = (lastDateOf txnsNetflix : ℚ) + (k : ℚ) * sNetflix.interval.val :=
  @nextBilling_congruent_last_record_date ⟨738960, 1⟩ 100 "NETFLIX" txnsNetflix
    sNetflix ⟨5911688, 8⟩ (by decide) (by decide)

/-- C7: for every qualifying merchant group, the summary's average
amount equals the arithmetic mean of the absolute values of the
merchant's negative-amount records (credits and refunds excluded),
exactly, in the idealised-float (rational) semantics. -/
theorem avgAmount_eq_mean_abs_charges {now : Flt} {fuel : Nat} {m : String}
    {txns : List Txn} {s : Summary} (h : mkSummary now fuel m txns = some s)
    (hpos : ∀ t ∈ txns, 0 < t.amount.den) :
    s.avg_amount.val = specMeanAbsCharges txns := by
  obtain ⟨h3, hne, hs⟩ := mkSummary_eq_some h
  have hA : ∀ a ∈ absCharges txns, 0 < a.den := by
    intro a ha
    rw [absCharges_eq] at ha
    obtain ⟨t, ht, rfl⟩ := List.mem_map.mp ha
    exact hpos t (List.mem_of_mem_filter ht)
  have hs' : s.avg_amount = (fltSum (absCharges txns)).divNat (absCharges txns).length := by
    rw [hs]
  have hmap : (absCharges txns).map Flt.val = specAbsCharges txns := by
    rw [absCharges_eq, specAbsCharges, List.map_map]
    exact List.map_congr_left (fun t _ => Flt.val_abs t.amount)
  have hlen : (absCharges txns).length = (specAbsCharges txns).length := by
    rw [absCharges_eq, specAbsCharges, List.length_map, List.length_map]
  rw [hs', Flt.val_divNat, fltSum_val hA, specMeanAbsCharges, hmap, hlen]

/-- Witness for C7 at the `rowsAllDates` group. -/
theorem avgAmount_eq_mean_abs_charges_witness :
    sNetflix.avg_amount.val = specMeanAbsCharges txnsNetflix :=
  @avgAmount_eq_mean_abs_charges ⟨738960, 1⟩ 100 "NETFLIX" txnsNetflix sNetflix
    (by decide) (by decide)

/-- C8: the list `parse_transactions` returns is sorted by descending
charge count, and for each count value the summaries appear in the
same order as in the pre-sort list built in merchant encounter order
(Python's `list.sort` is stable). -/
theorem output_sorted_desc_stable {rows : List Row} {now : Flt} {fuel : Nat}
    {out : List Summary} {gs : List (String × List Txn)}
    (hp : parseTransactions rows now fuel = .ok out)
    (hb : buildGroups rows = .ok gs) :
    List.Sorted byCountDesc out ∧
      ∀ c : Nat, out.filter (fun s => s.count == c) =
        (encounterSummaries now fuel gs).filter (fun s => s.count == c) := by
  obtain ⟨gs', hb', hout⟩ := parse_ok_iff.mp hp
  rw [hb] at hb'
  injection hb' with hgs
  subst hgs
  subst hout
  rw [summarize]
  exact ⟨List.sorted_insertionSort byCountDesc (encounterSummaries now fuel gs),
    fun c => filter_insertionSort_byCount c (encounterSummaries now fuel gs)⟩

/-- Witness for C8 on `rowsW`: sorted output, and the tied count-3
summaries (`BBB` before `CCC`) keep their encounter order. -/
theorem output_sorted_desc_stable_witness :
    List.Sorted byCountDesc outW ∧
      outW.filter (fun s => s.count == 3) =
        (encounterSummaries ⟨739000, 1⟩ 100 gsW).filter (fun s => s.count == 3) :=
  ⟨(@output_sorted_desc_stable rowsW ⟨739000, 1⟩ 100 outW gsW
      (by decide) (by decide)).1,
   (@output_sorted_desc_stable rowsW ⟨739000, 1⟩ 100 outW gsW
      (by decide) (by decide)).2 3⟩

/-- C9: generation is deterministic — two runs on equal rows with the
same captured "now" produce equal outputs — the renderer gives the
item at list position `i` the `data-id` index `i` (over the first 30),
and the browser-storage key is the fixed string `completed`, so
persisted completion state stays valid across re-generation. -/
theorem generation_deterministic (rows₁ rows₂ : List Row) (now₁ now₂ : Flt)
    (fuel : Nat) (hr : rows₁ = rows₂) (hn : now₁ = now₂) :
    parseTransactions rows₁ now₁ fuel = parseTransactions rows₂ now₂ fuel ∧
      localStorageKey = "completed" ∧
      ∀ out, parseTransactions rows₁ now₁ fuel = .ok out →
        ∀ (i : Nat) (h : i < (renderItems out).length),
          ((renderItems out).get ⟨i, h⟩).dataId = i := by
  subst hr
  subst hn
  refine ⟨rfl, rfl, ?_⟩
  intro out _ i h
  simp only [List.get_eq_getElem]
  simp [renderItems, List.getElem_map, List.getElem_enum]

/-- Witness for C9 on `rowsW`. -/
theorem generation_deterministic_witness :
    parseTransactions rowsW ⟨739000, 1⟩ 100 = parseTransactions rowsW ⟨739000, 1⟩ 100 ∧
      localStorageKey = "completed" ∧
      ((renderItems outW).get ⟨1, by decide⟩).dataId = 1 :=
  ⟨(generation_deterministic rowsW rowsW ⟨739000, 1⟩ ⟨739000, 1⟩ 100 rfl rfl).1,
   (generation_deterministic rowsW rowsW ⟨739000, 1⟩ ⟨739000, 1⟩ 100 rfl rfl).2.1,
   (generation_deterministic rowsW rowsW ⟨739000, 1⟩ ⟨739000, 1⟩ 100 rfl rfl).2.2
     outW (by decide) 1 (by decide)⟩

/-- C10: a row whose CAD$ and USD$ fields are both empty after
stripping produces no transaction record — the merchant groups are
unchanged — whatever the description and date contain. -/
theorem empty_amount_row_ignored (st : List (String × List Txn)) (row : Row)
    (d c u : String) (hd : row.desc1 = some d) (hc : row.cad = some c)
    (hcs : pyStrip c = "") (hu : row.usd = some u) (hus : pyStrip u = "") :
    processRow st row = .ok st := by
  by_cases hskip : skipDesc (pyStrip d)
  · simp [processRow, hd, hskip]
  · have htp : tryParseRow row = none ∨ tryParseRow row = some none := by
      rcases htd : row.txnDate with _ | ds
      · left
        simp [tryParseRow, htd]
      · rcases hsp : strptimeMDY ds with _ | date
        · left
          simp [tryParseRow, htd, hsp]
        · right
          simp [tryParseRow, htd, hsp, hc, hu, hcs, hus]
    rcases htp with h | h <;> simp [processRow, hd, hskip, h]

/-- Witness for C10: a valid date with whitespace-only amounts leaves
the groups untouched. -/
theorem empty_amount_row_ignored_witness :
    processRow [] ⟨some "ACME", some "1/1/2024", some " ", some ""⟩ = .ok [] :=
  empty_amount_row_ignored [] ⟨some "ACME", some "1/1/2024", some " ", some ""⟩
    "ACME" " " "" rfl rfl (by decide) rfl (by decide)
